import Mathlib

/-!
Verification development for the PixelSmith image-processing core.

This file gives a shallow embedding of the TypeScript sources
(`src/core/types.ts`, `src/core/applyCrop.ts`, `src/core/resizeImage.ts`,
`src/core/convertFormat.ts`, `src/core/metadata.ts`, `src/core/pipeline.ts`)
and proves properties of the embedded functions.

Conventions of the embedding:
* JS `number` values used for pixel geometry are modelled as `Nat`/`Int`;
  the fractional intermediate values of percentage and aspect computations
  are modelled as `ℚ`, with `Math.round` modelled by Mathlib `round`
  (both are `⌊x + 1/2⌋`).
* Optional fields of the loosely-typed operation descriptors are `Option`s;
  JS truthiness tests (`!x`, `x && y`) on numbers and strings are modelled
  by `truthyNat` / `truthyStr`.
* Functions that `throw` are modelled in `Except String`.
* The external sharp/libvips codec is modelled per the capability contract:
  an abstract `CodecSem` record of functions acting on an image `Handle`
  that carries the real current pixel dimensions.
-/

/-- JS truthiness of an optional numeric field: `undefined` and `0` are falsy. -/
def truthyNat : Option Nat → Bool
  | none => false
  | some n => n != 0

/-- JS truthiness of an optional string field: `undefined` and `""` are falsy. -/
def truthyStr : Option String → Bool
  | none => false
  | some s => s != ""

/-- `CropEdge` from `types.ts`. -/
inductive CropEdge
  | top
  | bottom
  | left
  | right
deriving DecidableEq, Repr

/-- `ResizeOperation` from `types.ts` (the `op` tag is carried by the
`PipelineOperation` constructor).  `mode` is an `Option String` because the
descriptors arrive as loosely-typed configuration and the code checks
`!resize.mode` and compares against string literals. -/
structure ResizeOperation where
  mode : Option String
  width : Option Nat
  height : Option Nat
  noUpscale : Option Bool
  fit : Option String
  kernel : Option String
deriving DecidableEq, Repr

/-- `CropOperation` from `types.ts`. -/
structure CropOperation where
  edge : Option CropEdge
  value : Option Int
  percent : Option ℚ
  gravity : Option String
  width : Option Nat
  height : Option Nat
  left : Option Int
  top : Option Int
deriving DecidableEq, Repr

/-- `ConvertOperation` from `types.ts`; `format` is optional because the
validator checks `!convert.format`. -/
structure ConvertOperation where
  format : Option String
  quality : Option Nat
  progressive : Option Bool
  lossless : Option Bool
  cq : Option Nat
  speed : Option Nat
  chromaSubsampling : Option String
deriving DecidableEq, Repr

/-- `MetadataOperation` from `types.ts`. -/
structure MetadataOperation where
  strip : Option Bool
  autorotate : Option Bool
  preserveFields : Option (List String)
deriving DecidableEq, Repr

/-- The tagged union `PipelineOperation`; `other t` models an element whose
`op` tag is missing/empty (`t` falsy) or unrecognized. -/
inductive PipelineOperation
  | resize (r : ResizeOperation)
  | crop (c : CropOperation)
  | convert (c : ConvertOperation)
  | metadata (m : MetadataOperation)
  | other (tag : Option String)
deriving DecidableEq, Repr

/-- `OutputConfig` from `types.ts`. -/
structure OutputConfig where
  dir : Option String
  pattern : Option String
  overwrite : Option Bool
deriving DecidableEq, Repr

/-- `Pipeline` from `types.ts`. -/
structure Pipeline where
  name : Option String
  pipeline : List PipelineOperation
  output : Option OutputConfig
deriving DecidableEq, Repr

/-- The rectangle handed to sharp `extract` (crop). -/
structure ExtractRegion where
  left : Int
  top : Int
  width : Int
  height : Int
deriving DecidableEq, Repr

/-- `calculatePercentCrop` from `applyCrop.ts`: converts a percentage into a
pixel count using the image dimension orthogonal to the edge. -/
def calculatePercentCrop (edge : CropEdge) (percent : ℚ) (width height : Nat) : Int :=
  let dimension : Nat :=
    match edge with
    | .top => height
    | .bottom => height
    | .left => width
    | .right => width
  round (percent / 100 * (dimension : ℚ))

/-- `applyCropFromEdge` from `applyCrop.ts`: the extract rectangle that removes
`cropValue` pixels from the given edge, with the cropped dimension floored
at 1. -/
def applyCropFromEdge (edge : CropEdge) (cropValue : Int) (width height : Nat) : ExtractRegion :=
  match edge with
  | .top => { left := 0, top := cropValue, width := (width : Int), height := max 1 ((height : Int) - cropValue) }
  | .bottom => { left := 0, top := 0, width := (width : Int), height := max 1 ((height : Int) - cropValue) }
  | .left => { left := cropValue, top := 0, width := max 1 ((width : Int) - cropValue), height := (height : Int) }
  | .right => { left := 0, top := 0, width := max 1 ((width : Int) - cropValue), height := (height : Int) }

/-- `gravityToPosition` from `applyCrop.ts`. -/
def gravityToPosition (gravity : String) : String :=
  match gravity with
  | "north" => "top"
  | "south" => "bottom"
  | "east" => "right"
  | "west" => "left"
  | "center" => "centre"
  | "northeast" => "right top"
  | "northwest" => "left top"
  | "southeast" => "right bottom"
  | "southwest" => "left bottom"
  | _ => "centre"

/-- The codec-level action selected by `applyCrop`: an explicit extract, a
cover-fit resize (gravity scheme), or an edge-based extract. -/
inductive CropAction
  | extractExplicit (r : ExtractRegion)
  | coverResize (width height : Nat) (position : String)
  | extractEdge (r : ExtractRegion)
deriving DecidableEq, Repr

/-- Guard of the explicit-rectangle scheme in `applyCrop`
(`left !== undefined && top !== undefined && width !== undefined && height !== undefined`). -/
def explicitScheme (op : CropOperation) : Bool :=
  op.left.isSome && op.top.isSome && op.width.isSome && op.height.isSome

/-- Guard of the gravity scheme in `applyCrop` (`gravity && width && height`,
JS truthiness). -/
def gravityScheme (op : CropOperation) : Bool :=
  truthyStr op.gravity && truthyNat op.width && truthyNat op.height

/-- Guard of the edge scheme in `applyCrop`
(`edge && (value !== undefined || percent !== undefined)`). -/
def edgeScheme (op : CropOperation) : Bool :=
  op.edge.isSome && (op.value.isSome || op.percent.isSome)

/-- `applyCrop` from `applyCrop.ts`: resolves one of the four addressing
schemes against the current tracked metadata dimensions (`width ?? 0`,
`height ?? 0`) and returns the codec action, or throws. -/
def applyCrop (op : CropOperation) (metaW metaH : Option Nat) : Except String CropAction :=
  let imgWidth := metaW.getD 0
  let imgHeight := metaH.getD 0
  if imgWidth = 0 ∨ imgHeight = 0 then
    .error "Image dimensions are required for cropping"
  else if explicitScheme op then
    .ok (.extractExplicit { left := op.left.getD 0, top := op.top.getD 0,
                            width := ((op.width.getD 0 : Nat) : Int),
                            height := ((op.height.getD 0 : Nat) : Int) })
  else if gravityScheme op then
    .ok (.coverResize (op.width.getD 0) (op.height.getD 0) (gravityToPosition (op.gravity.getD "")))
  else if edgeScheme op then
    let edge := op.edge.getD .top
    let cropValue : Int :=
      match op.percent with
      | some p => calculatePercentCrop edge p imgWidth imgHeight
      | none => op.value.getD 0
    .ok (.extractEdge (applyCropFromEdge edge cropValue imgWidth imgHeight))
  else
    .error "Invalid crop operation: must specify either edge+value, gravity+dimensions, or explicit coordinates"

/-- The options record handed to sharp `resize` by `applyResize`. -/
structure ResizeCall where
  width : Option Nat
  height : Option Nat
  fit : Option String
  kernel : String
  withoutEnlargement : Bool
deriving DecidableEq, Repr

/-- `applyResize` from `resizeImage.ts`: validates the operation per mode and
produces the sharp `resize` options (the pixel work itself is external). -/
def applyResize (op : ResizeOperation) : Except String ResizeCall :=
  let kernel := op.kernel.getD "lanczos3"
  let noUp := op.noUpscale.getD false
  match op.mode with
  | some "width" =>
      if truthyNat op.width then
        .ok { width := op.width, height := none, fit := none, kernel := kernel, withoutEnlargement := noUp }
      else .error "Width is required for width mode"
  | some "height" =>
      if truthyNat op.height then
        .ok { width := none, height := op.height, fit := none, kernel := kernel, withoutEnlargement := noUp }
      else .error "Height is required for height mode"
  | some "contain" =>
      if truthyNat op.width && truthyNat op.height then
        .ok { width := op.width, height := op.height, fit := some "inside", kernel := kernel, withoutEnlargement := noUp }
      else .error "Both width and height are required for contain mode"
  | some "cover" =>
      if truthyNat op.width && truthyNat op.height then
        .ok { width := op.width, height := op.height, fit := some "cover", kernel := kernel, withoutEnlargement := noUp }
      else .error "Both width and height are required for cover mode"
  | some "exact" =>
      if truthyNat op.width && truthyNat op.height then
        .ok { width := op.width, height := op.height,
              fit := some (if truthyStr op.fit then op.fit.getD "" else "fill"),
              kernel := kernel, withoutEnlargement := noUp }
      else .error "Both width and height are required for exact mode"
  | _ => .error "Unknown resize mode"

/-- The inner `preventUpscale` helper of `calculateResizeDimensions`
(`pipeline.ts`): collapses the target to the current dimensions when
`noUpscale` is set and the target exceeds the input in either dimension. -/
def preventUpscale (noUpscale : Bool) (inputWidth inputHeight : Nat) (targetW targetH : Int) : Int × Int :=
  if noUpscale = true ∧ ((inputWidth : Int) < targetW ∨ (inputHeight : Int) < targetH) then
    ((inputWidth : Int), (inputHeight : Int))
  else (targetW, targetH)

/-- `calculateResizeDimensions` from `resizeImage.ts`: the pure computation of
the output dimensions for each resize mode. -/
def calculateResizeDimensions (op : ResizeOperation) (inputWidth inputHeight : Nat) :
    Except String (Int × Int) :=
  let noUp := op.noUpscale.getD false
  match op.mode with
  | some "width" =>
      if truthyNat op.width then
        let w := op.width.getD 0
        let aspect : ℚ := (inputHeight : ℚ) / (inputWidth : ℚ)
        let targetHeight : Int := round ((w : ℚ) * aspect)
        .ok (preventUpscale noUp inputWidth inputHeight (w : Int) targetHeight)
      else .error "Width is required"
  | some "height" =>
      if truthyNat op.height then
        let h := op.height.getD 0
        let aspect : ℚ := (inputWidth : ℚ) / (inputHeight : ℚ)
        let targetWidth : Int := round ((h : ℚ) * aspect)
        .ok (preventUpscale noUp inputWidth inputHeight targetWidth (h : Int))
      else .error "Height is required"
  | some "contain" =>
      if truthyNat op.width && truthyNat op.height then
        let w := op.width.getD 0
        let h := op.height.getD 0
        let aspect : ℚ := (inputWidth : ℚ) / (inputHeight : ℚ)
        let targetAspect : ℚ := (w : ℚ) / (h : ℚ)
        let tw : Int := if targetAspect < aspect then (w : Int) else round ((h : ℚ) * aspect)
        let th : Int := if targetAspect < aspect then round ((w : ℚ) / aspect) else (h : Int)
        .ok (preventUpscale noUp inputWidth inputHeight tw th)
      else .error "Both dimensions required"
  | some "cover" =>
      if truthyNat op.width && truthyNat op.height then
        .ok (preventUpscale noUp inputWidth inputHeight ((op.width.getD 0 : Nat) : Int) ((op.height.getD 0 : Nat) : Int))
      else .error "Both dimensions required"
  | some "exact" =>
      if truthyNat op.width && truthyNat op.height then
        .ok (preventUpscale noUp inputWidth inputHeight ((op.width.getD 0 : Nat) : Int) ((op.height.getD 0 : Nat) : Int))
      else .error "Both dimensions required"
  | _ => .error "Unknown resize mode"

/-- The per-format encoder options recorded by `applyConvert`
(`convertFormat.ts`) for use at final encode time. -/
inductive EncodeSettings
  | jpeg (quality : Nat) (progressive : Bool) (chromaSubsampling : String) (mozjpeg : Bool)
  | png (quality : Nat) (compressionLevel : Nat) (progressive : Bool)
  | webp (quality : Nat) (lossless : Bool) (nearLossless : Bool) (smartSubsample : Bool)
  | avif (quality : Nat) (effort : Int) (chromaSubsampling : String)
  | tiff (quality : Nat) (compression : String)
deriving DecidableEq, Repr

/-- `applyConvert` from `convertFormat.ts`: selects the encoder and its
options; quality defaults to 85. -/
def applyConvert (op : ConvertOperation) : Except String EncodeSettings :=
  let quality := op.quality.getD 85
  match op.format with
  | some "jpg" =>
      .ok (.jpeg quality (op.progressive.getD false) (op.chromaSubsampling.getD "4:2:0") true)
  | some "jpeg" =>
      .ok (.jpeg quality (op.progressive.getD false) (op.chromaSubsampling.getD "4:2:0") true)
  | some "png" =>
      .ok (.png quality 9 (op.progressive.getD false))
  | some "webp" =>
      .ok (.webp quality (op.lossless.getD false) false true)
  | some "avif" =>
      .ok (.avif (op.cq.getD quality)
        (match op.speed with
         | some s => 9 - (s : Int)
         | none => 5)
        (op.chromaSubsampling.getD "4:2:0"))
  | some "tiff" =>
      .ok (.tiff quality "jpeg")
  | f => .error ("Unsupported output format: " ++ f.getD "undefined")

/-- The metadata-handling call `applyMetadata` issues on the sharp instance:
`withMetadata({orientation: undefined})` in the strip branch, plain
`withMetadata()` in the keep branch. -/
inductive MetaCall
  | withMetadataOrientationNone
  | withMetadataAll
deriving DecidableEq, Repr

/-- Whether a metadata-handling call strips embedded metadata from the
written output, per sharp's documented contract: sharp strips metadata only
when `withMetadata` is NOT called; calling `withMetadata` — with or without an
orientation override — opts in to retaining EXIF/XMP/IPTC/ICC metadata.  Both
calls the code can issue therefore retain metadata. -/
def stripsMetadata : MetaCall → Bool
  | .withMetadataOrientationNone => false
  | .withMetadataAll => false

/-- The observable effect of `applyMetadata` (`metadata.ts`) on the image
pipeline: whether `rotate()` is applied, which `withMetadata` call is issued,
and whether the unsupported-preservation warning is emitted. -/
structure MetadataEffect where
  rotated : Bool
  metaCall : MetaCall
  warned : Bool
deriving DecidableEq, Repr

/-- `applyMetadata` from `metadata.ts`: `strip` and `autorotate` default to
`true`; a non-empty `preserveFields` together with `strip` emits a warning;
the strip branch issues `withMetadata({orientation: undefined})` and the keep
branch issues `withMetadata()`. -/
def applyMetadata (op : MetadataOperation) : MetadataEffect :=
  let strip := op.strip.getD true
  let autorotate := op.autorotate.getD true
  { rotated := autorotate
  , warned := strip && op.preserveFields.isSome && decide (0 < (op.preserveFields.getD []).length)
  , metaCall := if strip then .withMetadataOrientationNone else .withMetadataAll }

/-- The in-memory image handle: per the codec capability contract it owns the
decoded pixel buffer and its real current dimensions. -/
structure Handle where
  width : Nat
  height : Nat
deriving DecidableEq, Repr

/-- The external sharp/libvips codec, abstracted: how each codec-level call
transforms the real dimensions of the image that will be written. -/
structure CodecSem where
  cropApply : CropAction → Handle → Handle
  resizeApply : ResizeCall → Handle → Handle
  metadataApply : MetadataEffect → Handle → Handle
  convertApply : EncodeSettings → Handle → Handle

/-- The state threaded through the operation loop of `processImage`
(`pipeline.ts`): the image handle, the tracked metadata (re-queried after
every geometry-changing operation), the tracked final dimensions, and the
output format recorded by the last `convert`. -/
structure PipeState where
  image : Handle
  metaW : Option Nat
  metaH : Option Nat
  metaFormat : Option String
  finalWidth : Option Nat
  finalHeight : Option Nat
  outputFormat : Option String
deriving DecidableEq, Repr

/-- One iteration of the operation loop in `processImage`: dispatch on the
`op` tag, apply the operation, and after crop/resize reassign the tracked
metadata and final width/height from `await image.metadata()`.  Per sharp's
documented contract `metadata()` reads the *input* header and ignores the
queued operations, so the re-query returns `inputMeta` — the decoded input's
metadata — not the handle's post-operation dimensions.  An unknown tag only
logs a warning and leaves the state unchanged. -/
def runOp (sem : CodecSem) (inputMeta : Option Nat × Option Nat × Option String)
    (op : PipelineOperation) (st : PipeState) : Except String PipeState :=
  match op with
  | .metadata m =>
      .ok { st with image := sem.metadataApply (applyMetadata m) st.image }
  | .crop c =>
      match applyCrop c st.metaW st.metaH with
      | .error e => .error e
      | .ok act =>
          let img := sem.cropApply act st.image
          .ok { st with image := img,
                        metaW := inputMeta.1, metaH := inputMeta.2.1, metaFormat := inputMeta.2.2,
                        finalWidth := inputMeta.1, finalHeight := inputMeta.2.1 }
  | .resize r =>
      match applyResize r with
      | .error e => .error e
      | .ok call =>
          let img := sem.resizeApply call st.image
          .ok { st with image := img,
                        metaW := inputMeta.1, metaH := inputMeta.2.1, metaFormat := inputMeta.2.2,
                        finalWidth := inputMeta.1, finalHeight := inputMeta.2.1 }
  | .convert c =>
      match applyConvert c with
      | .error e => .error e
      | .ok es => .ok { st with image := sem.convertApply es st.image, outputFormat := c.format }
  | .other _ => .ok st

/-- The whole operation loop of `processImage`; `inputMeta` is what
`image.metadata()` returns (the input header, constant across the run). -/
def runPipeline (sem : CodecSem) (inputMeta : Option Nat × Option Nat × Option String)
    (ops : List PipelineOperation) (st : PipeState) : Except String PipeState :=
  ops.foldlM (fun s op => runOp sem inputMeta op s) st

/-- `ProcessingResult` from `types.ts` (the wall-clock `duration` field is
omitted from the embedding). -/
structure ProcessingResult where
  inputPath : String
  outputPath : Option String
  success : Bool
  error : Option String
  inputSize : Option Nat
  outputSize : Option Nat
  width : Option Nat
  height : Option Nat
  format : Option String
deriving DecidableEq, Repr

/-- The per-image external world seen by `processImage`: input stat, decoded
metadata (width/height/format, any of which sharp may leave undefined), the
decoded handle, the codec, the naming resolution (an excluded string utility),
directory creation and the write+stat of the output.  Each `Except` models a
call that can throw. -/
structure ImageEnv where
  statSize : Except String Nat
  decodeMeta : Except String (Option Nat × Option Nat × Option String)
  initialHandle : Handle
  sem : CodecSem
  resolvePath : Option Nat → Option Nat → Option String → Option Nat → String
  ensureDir : Except String Unit
  writeResult : Except String Nat

/-- The initial loop state of `processImage`: tracked metadata and final
dimensions start from the decoded metadata; no output format yet. -/
def initState (h : Handle) (meta : Option Nat × Option Nat × Option String) : PipeState :=
  { image := h, metaW := meta.1, metaH := meta.2.1, metaFormat := meta.2.2,
    finalWidth := meta.1, finalHeight := meta.2.1, outputFormat := none }

/-- The body of the `try` block of `processImage` (`pipeline.ts`): stat the
input, decode metadata, run the operation loop, resolve the output path,
ensure the directory, write the file and stat it, then build the success
outcome with the tracked dimensions and `outputFormat ?? metadata.format`. -/
def processImageCore (env : ImageEnv) (inputPath : String) (pipe : Pipeline)
    (outputDir : Option String) (index : Option Nat) : Except String ProcessingResult :=
  match env.statSize with
  | .error e => .error e
  | .ok inputSize =>
    match env.decodeMeta with
    | .error e => .error e
    | .ok meta =>
      match runPipeline env.sem meta pipe.pipeline (initState env.initialHandle meta) with
      | .error e => .error e
      | .ok st =>
        match env.ensureDir with
        | .error e => .error e
        | .ok _ =>
          match env.writeResult with
          | .error e => .error e
          | .ok outputSize =>
            .ok { inputPath := inputPath,
                  outputPath := some (env.resolvePath st.finalWidth st.finalHeight st.outputFormat index),
                  success := true, error := none,
                  inputSize := some inputSize, outputSize := some outputSize,
                  width := st.finalWidth, height := st.finalHeight,
                  format := st.outputFormat <|> st.metaFormat }

/-- The failure outcome built by the `catch` block of `processImage`. -/
def failureResult (inputPath : String) (e : String) : ProcessingResult :=
  { inputPath := inputPath, outputPath := none, success := false, error := some e,
    inputSize := none, outputSize := none, width := none, height := none, format := none }

/-- `processImage` from `pipeline.ts`: any exception from decode, an
operation, or encode/write is caught at the single-image boundary and turned
into a failure outcome. -/
def processImage (env : ImageEnv) (inputPath : String) (pipe : Pipeline)
    (outputDir : Option String) (index : Option Nat) : ProcessingResult :=
  match processImageCore env inputPath pipe outputDir index with
  | .ok r => r
  | .error e => failureResult inputPath e

/-- The loop of `processBatch` (`pipeline.ts`): tasks are pushed onto a queue
and the queue is flushed (awaited in order and appended to the results)
whenever it reaches the concurrency limit or the last input was pushed. -/
def processBatchLoop (proc : String → Nat → ProcessingResult) (concurrency : Nat) :
    List String → Nat → List ProcessingResult → List ProcessingResult → List ProcessingResult
  | [], _, _, results => results
  | p :: rest, i, queue, results =>
      let queue2 := queue ++ [proc p i]
      if concurrency ≤ queue2.length ∨ rest = [] then
        processBatchLoop proc concurrency rest (i + 1) [] (results ++ queue2)
      else
        processBatchLoop proc concurrency rest (i + 1) queue2 results

/-- `processBatch` from `pipeline.ts`, parameterized by the single-image
processor (which receives the input path and its batch index). -/
def processBatch (proc : String → Nat → ProcessingResult) (inputPaths : List String)
    (concurrency : Nat) : List ProcessingResult :=
  processBatchLoop proc concurrency inputPaths 0 [] []

/-- The in-order enumeration `[proc l₀ i, proc l₁ (i+1), …]`, used to state
what `processBatch` computes. -/
def enumProc (proc : String → Nat → ProcessingResult) : Nat → List String → List ProcessingResult
  | _, [] => []
  | i, p :: rest => proc p i :: enumProc proc (i + 1) rest

/-- A fixed fallback outcome for `List.getD` indexing in statements. -/
def defaultResult : ProcessingResult := failureResult "" ""

/-- Validator messages from `validatePipeline` (`pipeline.ts`). -/
def resizeOpErrors (r : ResizeOperation) : List String :=
  (if truthyStr r.mode then ([] : List String)
   else ["Resize operation requires \"mode\" field"]) ++
  (if (r.mode == some "width" || r.mode == some "contain" || r.mode == some "cover" || r.mode == some "exact")
      && !truthyNat r.width then
     ["Resize mode \"" ++ r.mode.getD "" ++ "\" requires \"width\" field"]
   else []) ++
  (if (r.mode == some "height" || r.mode == some "contain" || r.mode == some "cover" || r.mode == some "exact")
      && !truthyNat r.height then
     ["Resize mode \"" ++ r.mode.getD "" ++ "\" requires \"height\" field"]
   else [])

/-- The violations contributed by one element of the operation list in
`validatePipeline`: missing `op` tag, per-kind required fields, unknown tag. -/
def operationErrors : PipelineOperation → List String
  | .resize r => resizeOpErrors r
  | .convert c =>
      if truthyStr c.format then [] else ["Convert operation requires \"format\" field"]
  | .crop _ => []
  | .metadata _ => []
  | .other t =>
      if truthyStr t then ["Unknown operation type: \"" ++ t.getD "" ++ "\""]
      else ["Each operation must have an \"op\" field"]

/-- The validity flag plus ordered violation list returned by
`validatePipeline`. -/
structure ValidationResult where
  valid : Bool
  errors : List String
deriving DecidableEq, Repr

/-- `validatePipeline` from `pipeline.ts`: pushes a violation for an empty
operation list, then walks the list accumulating per-operation violations;
`valid` is `errors.length === 0`. -/
def validatePipeline (p : Pipeline) : ValidationResult :=
  let base : List String :=
    if p.pipeline.length = 0 then ["Pipeline must contain at least one operation"] else []
  let errors := p.pipeline.foldl (fun acc op => acc ++ operationErrors op) base
  { valid := errors.length == 0, errors := errors }

/-- A simple concrete codec used to exercise the orchestrator theorems:
extract and cover-resize set the handle to the requested rectangle, a resize
call sets any requested dimension, metadata/convert leave the pixels alone. -/
def semW : CodecSem :=
  { cropApply := fun act h =>
      match act with
      | .extractExplicit r => { width := r.width.toNat, height := r.height.toNat }
      | .coverResize w h2 _ => { width := w, height := h2 }
      | .extractEdge r => { width := r.width.toNat, height := r.height.toNat }
  , resizeApply := fun call h =>
      { width := call.width.getD h.width, height := call.height.getD h.height }
  , metadataApply := fun _ h => h
  , convertApply := fun _ h => h }

/-- A concrete healthy per-image environment: a 100×80 png input. -/
def envW : ImageEnv :=
  { statSize := .ok 1000
  , decodeMeta := .ok (some 100, some 80, some "png")
  , initialHandle := { width := 100, height := 80 }
  , sem := semW
  , resolvePath := fun _ _ _ _ => "out.png"
  , ensureDir := .ok ()
  , writeResult := .ok 500 }

/-- A concrete pipeline: one edge crop removing 10 pixels from the top. -/
def pipeW : Pipeline :=
  { name := none
  , pipeline := [ .crop { edge := some .top, value := some 10, percent := none, gravity := none,
                          width := none, height := none, left := none, top := none } ]
  , output := none }

/-- A batch environment where input index 1 fails at `stat`. -/
def envfW : Nat → ImageEnv :=
  fun i => if i = 1 then { envW with statSize := .error "boom" } else envW

/-- C6: for every edge-based crop on an image with positive dimensions, the
extract rectangle has width ≥ 1 and height ≥ 1 regardless of the crop amount,
and cropping 100% from the bottom edge yields an extract height of exactly 1. -/
theorem crop_extract_min_one (edge : CropEdge) (v : Int) (w h : Nat)
    (hw : 1 ≤ w) (hh : 1 ≤ h) :
    1 ≤ (applyCropFromEdge edge v w h).width ∧ 1 ≤ (applyCropFromEdge edge v w h).height ∧
    (applyCropFromEdge .bottom (calculatePercentCrop .bottom 100 w h) w h).height = 1 := by
  have hfull : calculatePercentCrop .bottom 100 w h = (h : Int) := by
    unfold calculatePercentCrop
    norm_num
  refine ⟨?_, ?_, ?_⟩
  · cases edge <;> simp only [applyCropFromEdge] <;> omega
  · cases edge <;> simp only [applyCropFromEdge] <;> omega
  · rw [hfull]
    simp [applyCropFromEdge]

/-- Witness for `crop_extract_min_one` at a concrete 3×4 image with an
over-large left crop. -/
theorem crop_extract_min_one_witness :
    1 ≤ (applyCropFromEdge .left 5 3 4).width ∧ 1 ≤ (applyCropFromEdge .left 5 3 4).height ∧
    (applyCropFromEdge .bottom (calculatePercentCrop .bottom 100 3 4) 3 4).height = 1 :=
  crop_extract_min_one .left 5 3 4 (by decide) (by decide)

/-- C10 (code bug): with neither `strip` nor `autorotate` given,
`applyMetadata` defaults both to `true` and applies the EXIF rotation, and a
non-empty `preserveFields` together with `strip` emits the warning without any
partial-preservation path — as claimed — but the strip branch's actual call is
`withMetadata({orientation: undefined})`, which per sharp's contract retains
embedded metadata (sharp strips only when `withMetadata` is not called), so
nothing is stripped, contradicting the claim and the code's own comments. -/
theorem applyMetadata_withMetadata_retains_bug :
    (applyMetadata { strip := none, autorotate := none, preserveFields := none }).rotated = true ∧
    (applyMetadata { strip := none, autorotate := none, preserveFields := none }).metaCall
      = .withMetadataOrientationNone ∧
    (applyMetadata { strip := none, autorotate := none, preserveFields := some ["exif"] }).warned
      = true ∧
    (applyMetadata { strip := none, autorotate := none, preserveFields := some ["exif"] }).metaCall
      = .withMetadataOrientationNone ∧
    stripsMetadata .withMetadataOrientationNone = false ∧
    stripsMetadata .withMetadataAll = false :=
  ⟨rfl, rfl, by decide, rfl, rfl, rfl⟩

/-- C8 counterexample: the PNG encoder options produced by `applyConvert`
contain the operation's `quality` field, so the encoding is not independent of
it — two `Convert{format: png}` operations differing only in quality produce
different encoder invocations. -/
theorem convert_png_counterexample :
    applyConvert { format := some "png", quality := some 10, progressive := none, lossless := none,
                   cq := none, speed := none, chromaSubsampling := none }
      = .ok (.png 10 9 false) ∧
    applyConvert { format := some "png", quality := some 90, progressive := none, lossless := none,
                   cq := none, speed := none, chromaSubsampling := none }
      = .ok (.png 90 9 false) ∧
    EncodeSettings.png 10 9 false ≠ EncodeSettings.png 90 9 false :=
  ⟨rfl, rfl, by decide⟩

/-- C8 as amended: for format png, `applyConvert` invokes the PNG encoder with
the operation's quality (default 85), compressionLevel 9 and the progressive
flag; the quality field flows into the encoder call rather than being
ignored. -/
theorem convert_png_settings (op : ConvertOperation) (hf : op.format = some "png") :
    applyConvert op = .ok (.png (op.quality.getD 85) 9 (op.progressive.getD false)) := by
  obtain ⟨f, q, pr, lo, cq, sp, ch⟩ := op
  cases hf
  rfl

/-- Witness for `convert_png_settings` with all optional fields absent. -/
theorem convert_png_settings_witness :
    applyConvert { format := some "png", quality := none, progressive := none, lossless := none,
                   cq := none, speed := none, chromaSubsampling := none } = .ok (.png 85 9 false) :=
  convert_png_settings _ rfl

/-- C1 counterexample: cropping 100% from the top of a 5×2 image computes
`round(100/100 × 2) = 2` pixels but the extract height is floored at 1, so
only 1 pixel is removed, not `round(P/100 × H)`. -/
theorem crop_top_full_percent_counterexample :
    applyCrop { edge := some .top, value := none, percent := some 100, gravity := none,
                width := none, height := none, left := none, top := none } (some 5) (some 2)
      = .ok (.extractEdge { left := 0, top := 2, width := 5, height := 1 }) ∧
    round ((100 : ℚ) / 100 * (2 : ℚ)) = 2 ∧
    (2 : Int) - 1 ≠ round ((100 : ℚ) / 100 * (2 : ℚ)) := by
  have h2 : round ((100 : ℚ) / 100 * (2 : ℚ)) = 2 := by norm_num
  refine ⟨?_, h2, by rw [h2]; decide⟩
  have : calculatePercentCrop .top 100 5 2 = 2 := by
    unfold calculatePercentCrop
    norm_num
  simp [applyCrop, explicitScheme, gravityScheme, edgeScheme, truthyStr, truthyNat, this,
        applyCropFromEdge]

/-- C1 as amended: for `Crop{edge: top, percent: P}` on a W×H image, the
computed crop value is `round(P/100 × H)` from the actual dimensions passed in
(top/bottom use the height), and the removed pixel count
`H − extract.height` equals `min(round(P/100 × H), H − 1)` because the extract
height is floored at 1; whenever `round(P/100 × H) ≤ H − 1` the removed count
is exactly `round(P/100 × H)`. -/
theorem crop_top_percent_removed_pixels (w h : Nat) (P : ℚ)
    (hw : w ≠ 0) (hh : h ≠ 0) (hP : 0 ≤ P) :
    applyCrop { edge := some .top, value := none, percent := some P, gravity := none,
                width := none, height := none, left := none, top := none } (some w) (some h)
      = .ok (.extractEdge { left := 0, top := round (P / 100 * (h : ℚ)), width := (w : Int),
                            height := max 1 ((h : Int) - round (P / 100 * (h : ℚ))) }) ∧
    (h : Int) - max 1 ((h : Int) - round (P / 100 * (h : ℚ)))
      = min (round (P / 100 * (h : ℚ))) ((h : Int) - 1) := by
  have hr0 : 0 ≤ round (P / 100 * (h : ℚ)) := by
    rw [round_eq]
    have harg : (0 : ℚ) ≤ P / 100 * (h : ℚ) := by positivity
    exact Int.le_floor.mpr (by push_cast; linarith)
  have hh1 : 1 ≤ (h : Int) := by exact_mod_cast Nat.one_le_iff_ne_zero.mpr hh
  constructor
  · have hcv : calculatePercentCrop .top P w h = round (P / 100 * (h : ℚ)) := rfl
    simp [applyCrop, explicitScheme, gravityScheme, edgeScheme, truthyStr, truthyNat, hw, hh,
          hcv, applyCropFromEdge]
  · omega

/-- Witness for `crop_top_percent_removed_pixels`: 10% off the top of a
400×1000 image removes exactly `round(10/100 × 1000) = 100` pixels. -/
theorem crop_top_percent_removed_pixels_witness :
    applyCrop { edge := some .top, value := none, percent := some 10, gravity := none,
                width := none, height := none, left := none, top := none } (some 400) (some 1000)
      = .ok (.extractEdge { left := 0, top := 100, width := 400, height := 900 }) := by
  have h := (crop_top_percent_removed_pixels 400 1000 10 (by decide) (by decide) (by decide)).1
  have hr : round ((10 : ℚ) / 100 * ((1000 : Nat) : ℚ)) = 100 := by norm_num
  rw [h, hr]
  norm_num [sup_eq_max, max_def]

/-- C4: for `Resize{mode: width, width: W, noUpscale: true}` on a cw×ch image
(cw > 0, W truthy), the computed dimensions are unchanged when cw < W (no-op)
and otherwise `(W, round(ch × W / cw))`. -/
theorem resize_width_noUpscale_dims (op : ResizeOperation) (cw ch W : Nat)
    (hmode : op.mode = some "width") (hw : op.width = some W) (hW : W ≠ 0)
    (hnoUp : op.noUpscale = some true) (hcw : 0 < cw) :
    calculateResizeDimensions op cw ch =
      if cw < W then .ok ((cw : Int), (ch : Int))
      else .ok ((W : Int), round ((ch : ℚ) * (W : ℚ) / (cw : ℚ))) := by
  have harg : (W : ℚ) * ((ch : ℚ) / (cw : ℚ)) = (ch : ℚ) * (W : ℚ) / (cw : ℚ) := by ring
  have htr : truthyNat (some W) = true := by simp [truthyNat, hW]
  simp only [calculateResizeDimensions, hmode, hw, hnoUp, htr, Option.getD_some, if_true]
  by_cases hlt : cw < W
  · rw [if_pos hlt]
    unfold preventUpscale
    rw [if_pos ⟨rfl, Or.inl (by exact_mod_cast hlt)⟩]
  · rw [if_neg hlt]
    have hWle : W ≤ cw := Nat.le_of_not_lt hlt
    have hle : (W : ℚ) * ((ch : ℚ) / (cw : ℚ)) ≤ ((ch : Nat) : ℚ) := by
      rw [← mul_div_assoc, div_le_iff (by exact_mod_cast hcw)]
      have hc1 : (W : ℚ) ≤ (cw : ℚ) := by exact_mod_cast hWle
      have hc2 : (0 : ℚ) ≤ (ch : ℚ) := by positivity
      nlinarith
    have hround : round ((W : ℚ) * ((ch : ℚ) / (cw : ℚ))) ≤ (ch : Int) := by
      calc round ((W : ℚ) * ((ch : ℚ) / (cw : ℚ))) ≤ round (((ch : Nat) : ℚ)) := by
            rw [round_eq, round_eq]
            exact Int.floor_le_floor (by linarith)
        _ = (ch : Int) := round_natCast ch
    unfold preventUpscale
    rw [if_neg ?hcond, harg]
    case hcond =>
      rintro ⟨-, hor⟩
      rcases hor with hx | hx
      · exact hlt (by exact_mod_cast hx)
      · exact absurd hround (not_le.mpr hx)

/-- Witness for `resize_width_noUpscale_dims`: the spec scenario, a 4032×3024
image resized to width 1024 gives 1024×768. -/
theorem resize_width_noUpscale_dims_witness :
    calculateResizeDimensions
      { mode := some "width", width := some 1024, height := none, noUpscale := some true,
        fit := none, kernel := none } 4032 3024 = .ok (1024, 768) := by
  have h := resize_width_noUpscale_dims
    { mode := some "width", width := some 1024, height := none, noUpscale := some true,
      fit := none, kernel := none } 4032 3024 1024 rfl rfl (by decide) rfl (by decide)
  have hr : round (((3024 : Nat) : ℚ) * ((1024 : Nat) : ℚ) / ((4032 : Nat) : ℚ)) = 768 := by
    norm_num
  rw [h, if_neg (by decide), hr]
  norm_num

/-- `preventUpscale` is the identity when `noUpscale` is not set. -/
theorem preventUpscale_noUpscale_false (cw ch : Nat) (tw th : Int) :
    preventUpscale false cw ch tw th = (tw, th) := by
  simp [preventUpscale]

/-- C5 counterexample: `Resize{mode: contain, width: 20, height: 30,
noUpscale: true}` on a 10×10 image collapses to 10×10 (upscale prevented), so
neither output dimension equals its corresponding target. -/
theorem resize_contain_counterexample :
    calculateResizeDimensions
      { mode := some "contain", width := some 20, height := some 30, noUpscale := some true,
        fit := none, kernel := none } 10 10 = .ok (10, 10) ∧
    (10 : Int) ≠ 20 ∧ (10 : Int) ≠ 30 := by
  refine ⟨?_, by decide, by decide⟩
  have hA : (((20 : Nat) : ℚ) / ((30 : Nat) : ℚ)) < (((10 : Nat) : ℚ) / ((10 : Nat) : ℚ)) := by
    norm_num
  simp only [calculateResizeDimensions, truthyNat, Option.getD_some]
  norm_num [preventUpscale, round_eq]

/-- C5 as amended: for `Resize{mode: contain}` with truthy targets W and H on
a cw×ch image, provided `noUpscale` is not set, both output dimensions are the
input dimensions scaled by `min(W/cw, H/ch)` (rounded), the output fits within
W×H, and at least one output dimension equals its target.  (With `noUpscale`
set, an upscaling target instead collapses to the current dimensions.) -/
theorem resize_contain_fits (op : ResizeOperation) (cw ch W H : Nat)
    (hmode : op.mode = some "contain") (hw : op.width = some W) (hh : op.height = some H)
    (hW : W ≠ 0) (hH : H ≠ 0) (hcw : 0 < cw) (hch : 0 < ch)
    (hnoUp : op.noUpscale.getD false = false) :
    ∃ tw th : Int,
      calculateResizeDimensions op cw ch = .ok (tw, th) ∧
      tw ≤ (W : Int) ∧ th ≤ (H : Int) ∧ (tw = (W : Int) ∨ th = (H : Int)) ∧
      tw = round ((cw : ℚ) * min ((W : ℚ) / (cw : ℚ)) ((H : ℚ) / (ch : ℚ))) ∧
      th = round ((ch : ℚ) * min ((W : ℚ) / (cw : ℚ)) ((H : ℚ) / (ch : ℚ))) := by
  have hcwQ : (0 : ℚ) < (cw : ℚ) := by exact_mod_cast hcw
  have hchQ : (0 : ℚ) < (ch : ℚ) := by exact_mod_cast hch
  have hWQ : (0 : ℚ) < (W : ℚ) := by exact_mod_cast Nat.pos_of_ne_zero hW
  have hHQ : (0 : ℚ) < (H : ℚ) := by exact_mod_cast Nat.pos_of_ne_zero hH
  have htr : (truthyNat (some W) && truthyNat (some H)) = true := by
    simp [truthyNat, hW, hH]
  simp only [calculateResizeDimensions, hmode, hw, hh, hnoUp, htr, Option.getD_some, if_true,
    preventUpscale_noUpscale_false]
  by_cases hA : ((W : ℚ) / (H : ℚ)) < ((cw : ℚ) / (ch : ℚ))
  · -- image is wider than the target box: width pinned to W
    have hkey : (W : ℚ) * (ch : ℚ) < (cw : ℚ) * (H : ℚ) := (div_lt_div_iff hHQ hchQ).mp hA
    have hkey2 : (W : ℚ) * (ch : ℚ) < (H : ℚ) * (cw : ℚ) := by
      calc (W : ℚ) * (ch : ℚ) < (cw : ℚ) * (H : ℚ) := hkey
        _ = (H : ℚ) * (cw : ℚ) := by ring
    have hmin : min ((W : ℚ) / (cw : ℚ)) ((H : ℚ) / (ch : ℚ)) = (W : ℚ) / (cw : ℚ) :=
      min_eq_left (le_of_lt ((div_lt_div_iff hcwQ hchQ).mpr hkey2))
    simp only [if_pos hA]
    refine ⟨(W : Int), round ((W : ℚ) / ((cw : ℚ) / (ch : ℚ))), rfl, le_refl _, ?_, Or.inl rfl,
      ?_, ?_⟩
    · have harg : (W : ℚ) / ((cw : ℚ) / (ch : ℚ)) = (W : ℚ) * (ch : ℚ) / (cw : ℚ) :=
        div_div_eq_mul_div (W : ℚ) (cw : ℚ) (ch : ℚ)
      have hlt : (W : ℚ) * (ch : ℚ) / (cw : ℚ) < ((H : Nat) : ℚ) := by
        rw [div_lt_iff hcwQ]
        calc (W : ℚ) * (ch : ℚ) < (cw : ℚ) * (H : ℚ) := hkey
          _ = (H : ℚ) * (cw : ℚ) := by ring
      calc round ((W : ℚ) / ((cw : ℚ) / (ch : ℚ))) ≤ round (((H : Nat) : ℚ)) := by
            rw [round_eq, round_eq]
            exact Int.floor_le_floor (by rw [harg] at *; linarith)
        _ = (H : Int) := round_natCast H
    · rw [hmin, ← mul_div_assoc, mul_div_cancel_left₀ _ (ne_of_gt hcwQ), round_natCast]
    · rw [hmin]
      congr 1
      field_simp
      ring
  · -- image is at most as wide as the target box: height pinned to H
    have hkey : (cw : ℚ) * (H : ℚ) ≤ (W : ℚ) * (ch : ℚ) :=
      (div_le_div_iff hchQ hHQ).mp (not_lt.mp hA)
    have hmin : min ((W : ℚ) / (cw : ℚ)) ((H : ℚ) / (ch : ℚ)) = (H : ℚ) / (ch : ℚ) :=
      min_eq_right (by
        rw [div_le_div_iff hchQ hcwQ]
        calc (H : ℚ) * (cw : ℚ) = (cw : ℚ) * (H : ℚ) := by ring
          _ ≤ (W : ℚ) * (ch : ℚ) := hkey
          _ = (W : ℚ) * (ch : ℚ) := rfl)
    simp only [if_neg hA]
    refine ⟨round ((H : ℚ) * ((cw : ℚ) / (ch : ℚ))), (H : Int), rfl, ?_, le_refl _, Or.inr rfl,
      ?_, ?_⟩
    · have hle : (H : ℚ) * ((cw : ℚ) / (ch : ℚ)) ≤ ((W : Nat) : ℚ) := by
        rw [← mul_div_assoc, div_le_iff hchQ]
        calc (H : ℚ) * (cw : ℚ) = (cw : ℚ) * (H : ℚ) := by ring
          _ ≤ (W : ℚ) * (ch : ℚ) := hkey
      calc round ((H : ℚ) * ((cw : ℚ) / (ch : ℚ))) ≤ round (((W : Nat) : ℚ)) := by
            rw [round_eq, round_eq]
            exact Int.floor_le_floor (by linarith)
        _ = (W : Int) := round_natCast W
    · rw [hmin]
      congr 1
      ring
    · rw [hmin, ← mul_div_assoc, mul_div_cancel_left₀ _ (ne_of_gt hchQ), round_natCast]

/-- Witness for `resize_contain_fits`: the spec scenario, a 2000×1800 image
contained into 800×800 yields 800×720. -/
theorem resize_contain_fits_witness :
    calculateResizeDimensions
      { mode := some "contain", width := some 800, height := some 800, noUpscale := none,
        fit := none, kernel := none } 2000 1800 = .ok (800, 720) := by
  obtain ⟨tw, th, heq, -, -, -, htw, hth⟩ :=
    resize_contain_fits
      { mode := some "contain", width := some 800, height := some 800, noUpscale := none,
        fit := none, kernel := none } 2000 1800 800 800 rfl rfl rfl (by decide) (by decide)
      (by decide) (by decide) rfl
  rw [heq, htw, hth]
  have hm : min (((800 : Nat) : ℚ) / ((2000 : Nat) : ℚ)) (((800 : Nat) : ℚ) / ((1800 : Nat) : ℚ))
      = 2 / 5 := by
    rw [min_eq_left (by norm_num)]
    norm_num
  rw [hm]
  have h1 : ((2000 : Nat) : ℚ) * (2 / 5) = ((800 : Nat) : ℚ) := by norm_num
  have h2 : ((1800 : Nat) : ℚ) * (2 / 5) = ((720 : Nat) : ℚ) := by norm_num
  rw [h1, h2, round_natCast, round_natCast]
  norm_num

/-- C7: `applyCrop` resolves exactly one addressing scheme per invocation in
the order explicit rectangle, gravity+size, edge+percent, edge+pixel, succeeds
iff the tracked dimensions are known (non-zero) and some scheme is resolvable,
and otherwise throws the invalid-operation error. -/
theorem applyCrop_scheme_precedence (op : CropOperation) (mw mh : Option Nat) :
    ((∃ a, applyCrop op mw mh = .ok a) ↔
      (mw.getD 0 ≠ 0 ∧ mh.getD 0 ≠ 0 ∧
        (explicitScheme op = true ∨ gravityScheme op = true ∨ edgeScheme op = true))) ∧
    (mw.getD 0 ≠ 0 → mh.getD 0 ≠ 0 → explicitScheme op = true →
      applyCrop op mw mh = .ok (.extractExplicit
        { left := op.left.getD 0, top := op.top.getD 0,
          width := ((op.width.getD 0 : Nat) : Int), height := ((op.height.getD 0 : Nat) : Int) })) ∧
    (mw.getD 0 ≠ 0 → mh.getD 0 ≠ 0 → explicitScheme op = false → gravityScheme op = true →
      applyCrop op mw mh = .ok (.coverResize (op.width.getD 0) (op.height.getD 0)
        (gravityToPosition (op.gravity.getD "")))) ∧
    (∀ e p, mw.getD 0 ≠ 0 → mh.getD 0 ≠ 0 → explicitScheme op = false → gravityScheme op = false →
      op.edge = some e → op.percent = some p →
      applyCrop op mw mh = .ok (.extractEdge
        (applyCropFromEdge e (calculatePercentCrop e p (mw.getD 0) (mh.getD 0))
          (mw.getD 0) (mh.getD 0)))) ∧
    (∀ e v, mw.getD 0 ≠ 0 → mh.getD 0 ≠ 0 → explicitScheme op = false → gravityScheme op = false →
      op.edge = some e → op.percent = none → op.value = some v →
      applyCrop op mw mh = .ok (.extractEdge (applyCropFromEdge e v (mw.getD 0) (mh.getD 0)))) ∧
    ((mw.getD 0 = 0 ∨ mh.getD 0 = 0 ∨
        (explicitScheme op = false ∧ gravityScheme op = false ∧ edgeScheme op = false)) →
      ∃ msg, applyCrop op mw mh = .error msg) := by
  refine ⟨⟨?_, ?_⟩, ?_, ?_, ?_, ?_, ?_⟩
  · rintro ⟨a, ha⟩
    by_cases h0 : mw.getD 0 = 0 ∨ mh.getD 0 = 0
    · rw [applyCrop, if_pos h0] at ha
      exact absurd ha (by simp)
    · push_neg at h0
      refine ⟨h0.1, h0.2, ?_⟩
      by_cases hex : explicitScheme op = true
      · exact Or.inl hex
      by_cases hgr : gravityScheme op = true
      · exact Or.inr (Or.inl hgr)
      by_cases hed : edgeScheme op = true
      · exact Or.inr (Or.inr hed)
      exfalso
      rw [applyCrop, if_neg (by push_neg; exact h0), if_neg hex, if_neg hgr, if_neg hed] at ha
      exact absurd ha (by simp)
  · rintro ⟨h1, h2, hsch⟩
    have hne : ¬(mw.getD 0 = 0 ∨ mh.getD 0 = 0) := by push_neg; exact ⟨h1, h2⟩
    rw [applyCrop, if_neg hne]
    by_cases hex : explicitScheme op = true
    · rw [if_pos hex]; exact ⟨_, rfl⟩
    rw [if_neg hex]
    by_cases hgr : gravityScheme op = true
    · rw [if_pos hgr]; exact ⟨_, rfl⟩
    rw [if_neg hgr]
    by_cases hed : edgeScheme op = true
    · rw [if_pos hed]; exact ⟨_, rfl⟩
    rcases hsch with h | h | h
    · exact absurd h hex
    · exact absurd h hgr
    · exact absurd h hed
  · intro h1 h2 hex
    rw [applyCrop, if_neg (by push_neg; exact ⟨h1, h2⟩), if_pos hex]
  · intro h1 h2 hex hgr
    rw [applyCrop, if_neg (by push_neg; exact ⟨h1, h2⟩), if_neg (by simp [hex]), if_pos hgr]
  · intro e p h1 h2 hex hgr he hp
    have hed : edgeScheme op = true := by simp [edgeScheme, he, hp]
    rw [applyCrop, if_neg (by push_neg; exact ⟨h1, h2⟩), if_neg (by simp [hex]),
      if_neg (by simp [hgr]), if_pos hed]
    simp [he, hp]
  · intro e v h1 h2 hex hgr he hp hv
    have hed : edgeScheme op = true := by simp [edgeScheme, he, hv]
    rw [applyCrop, if_neg (by push_neg; exact ⟨h1, h2⟩), if_neg (by simp [hex]),
      if_neg (by simp [hgr]), if_pos hed]
    simp [he, hp, hv]
  · intro h
    rcases h with h | h | ⟨hex, hgr, hed⟩
    · exact ⟨_, by rw [applyCrop, if_pos (Or.inl h)]⟩
    · exact ⟨_, by rw [applyCrop, if_pos (Or.inr h)]⟩
    · by_cases h0 : mw.getD 0 = 0 ∨ mh.getD 0 = 0
      · exact ⟨_, by rw [applyCrop, if_pos h0]⟩
      · exact ⟨_, by rw [applyCrop, if_neg h0, if_neg (by simp [hex]), if_neg (by simp [hgr]),
          if_neg (by simp [hed])]⟩

/-- Witness for `applyCrop_scheme_precedence`: an operation carrying both a
gravity scheme and an edge scheme resolves the gravity scheme (precedence),
on a 100×100 image. -/
theorem applyCrop_scheme_precedence_witness :
    applyCrop { edge := some .top, value := some 5, percent := none, gravity := some "north",
                width := some 50, height := some 40, left := none, top := none }
        (some 100) (some 100)
      = .ok (.coverResize 50 40 "top") := by
  have h := (applyCrop_scheme_precedence
    { edge := some .top, value := some 5, percent := none, gravity := some "north",
      width := some 50, height := some 40, left := none, top := none }
    (some 100) (some 100)).2.2.1 (by decide) (by decide) (by decide) (by decide)
  rw [h]
  rfl

/-- The accumulator loop of `validatePipeline` appends the per-operation
violations in order after the initial violations. -/
theorem foldl_append_errors (l : List PipelineOperation) :
    ∀ init : List String,
      l.foldl (fun acc op => acc ++ operationErrors op) init = init ++ l.bind operationErrors := by
  induction l with
  | nil => intro init; simp
  | cons op l ih =>
      intro init
      simp only [List.foldl_cons, List.cons_bind]
      rw [ih (init ++ operationErrors op), List.append_assoc]

/-- C9: `validatePipeline` is valid iff the violation list is empty; the
violation list is the empty-pipeline violation followed by every operation's
violations in order (all collected, no early stop); and it reports the
empty-list, resize-missing-width, resize-missing-height, convert-missing-
format, and unknown-tag violations. -/
theorem validatePipeline_collects (p : Pipeline) :
    ((validatePipeline p).valid = true ↔ (validatePipeline p).errors = []) ∧
    (validatePipeline p).errors =
      (if p.pipeline.length = 0 then ["Pipeline must contain at least one operation"] else [])
        ++ p.pipeline.bind operationErrors ∧
    (p.pipeline.length = 0 →
      "Pipeline must contain at least one operation" ∈ (validatePipeline p).errors) ∧
    (∀ r m, PipelineOperation.resize r ∈ p.pipeline → r.mode = some m →
      (m = "width" ∨ m = "contain" ∨ m = "cover" ∨ m = "exact") → truthyNat r.width = false →
      ("Resize mode \"" ++ m ++ "\" requires \"width\" field") ∈ (validatePipeline p).errors) ∧
    (∀ r m, PipelineOperation.resize r ∈ p.pipeline → r.mode = some m →
      (m = "height" ∨ m = "contain" ∨ m = "cover" ∨ m = "exact") → truthyNat r.height = false →
      ("Resize mode \"" ++ m ++ "\" requires \"height\" field") ∈ (validatePipeline p).errors) ∧
    (∀ c, PipelineOperation.convert c ∈ p.pipeline → truthyStr c.format = false →
      "Convert operation requires \"format\" field" ∈ (validatePipeline p).errors) ∧
    (∀ t, PipelineOperation.other (some t) ∈ p.pipeline → t ≠ "" →
      ("Unknown operation type: \"" ++ t ++ "\"") ∈ (validatePipeline p).errors) := by
  have herr : (validatePipeline p).errors =
      (if p.pipeline.length = 0 then ["Pipeline must contain at least one operation"] else [])
        ++ p.pipeline.bind operationErrors := by
    simp only [validatePipeline]
    exact foldl_append_errors p.pipeline _
  refine ⟨?_, herr, ?_, ?_, ?_, ?_, ?_⟩
  · simp only [validatePipeline, beq_iff_eq, List.length_eq_zero]
  · intro h0
    rw [herr, if_pos h0]
    simp
  · intro r m hmem hm hmodes hwid
    rw [herr]
    refine List.mem_append_right _ (List.mem_bind.mpr ⟨.resize r, hmem, ?_⟩)
    rcases hmodes with rfl | rfl | rfl | rfl <;>
      simp [operationErrors, resizeOpErrors, hm, hwid, truthyStr]
  · intro r m hmem hm hmodes hhei
    rw [herr]
    refine List.mem_append_right _ (List.mem_bind.mpr ⟨.resize r, hmem, ?_⟩)
    rcases hmodes with rfl | rfl | rfl | rfl <;>
      simp [operationErrors, resizeOpErrors, hm, hhei, truthyStr]
  · intro c hmem hfmt
    rw [herr]
    exact List.mem_append_right _ (List.mem_bind.mpr ⟨.convert c, hmem,
      by simp [operationErrors, hfmt]⟩)
  · intro t hmem hne
    rw [herr]
    exact List.mem_append_right _ (List.mem_bind.mpr ⟨.other (some t), hmem,
      by simp [operationErrors, truthyStr, hne]⟩)

/-- Witness for `validatePipeline_collects`: a pipeline with a width-mode
resize missing its width and a convert missing its format reports the convert
violation (among the others). -/
theorem validatePipeline_collects_witness :
    "Convert operation requires \"format\" field" ∈
      (validatePipeline
        { name := none
        , pipeline :=
            [ .resize { mode := some "width", width := none, height := some 5, noUpscale := none,
                        fit := none, kernel := none }
            , .convert { format := none, quality := none, progressive := none, lossless := none,
                         cq := none, speed := none, chromaSubsampling := none } ]
        , output := none }).errors := by
  exact (validatePipeline_collects _).2.2.2.2.2.1
    { format := none, quality := none, progressive := none, lossless := none,
      cq := none, speed := none, chromaSubsampling := none }
    (by simp) rfl

/-- C2 (code bug): cropping 10 pixels from the top of a 100×80 image leaves
the handle's real dimensions at 100×70, but the post-crop re-query
`await image.metadata()` reads the input header, so the tracked metadata, the
final width/height, and the success outcome all report the stale input
dimensions 100×80 instead of the written image's actual 100×70. -/
theorem processImage_stale_dims_bug :
    runPipeline semW (some 100, some 80, some "png") pipeW.pipeline
        (initState { width := 100, height := 80 } (some 100, some 80, some "png"))
      = .ok { image := { width := 100, height := 70 }, metaW := some 100, metaH := some 80,
              metaFormat := some "png", finalWidth := some 100, finalHeight := some 80,
              outputFormat := none } ∧
    (processImage envW "in.png" pipeW none none).width = some 100 ∧
    (processImage envW "in.png" pipeW none none).height = some 80 ∧
    (70 : Nat) ≠ 80 :=
  ⟨rfl, rfl, rfl, by decide⟩

/-- The `processBatch` queue loop flushes everything in order: starting from a
pending queue and collected results, it returns the results, the queue, and
the in-order outcomes of the remaining inputs. -/
theorem processBatchLoop_spec (proc : String → Nat → ProcessingResult) (c : Nat) :
    ∀ (rest : List String) (i : Nat) (queue results : List ProcessingResult), rest ≠ [] →
      processBatchLoop proc c rest i queue results = results ++ queue ++ enumProc proc i rest := by
  intro rest
  induction rest with
  | nil => intro i q res h; exact absurd rfl h
  | cons p rest2 ih =>
      intro i q res _
      by_cases h2 : rest2 = []
      · subst h2
        simp only [processBatchLoop, if_pos (Or.inr rfl)]
        simp [enumProc, List.append_assoc]
      · by_cases hc : c ≤ (q ++ [proc p i]).length
        · simp only [processBatchLoop, if_pos (Or.inl hc)]
          rw [ih (i + 1) [] (res ++ (q ++ [proc p i])) h2]
          simp [enumProc, List.append_assoc]
        · have hcond : ¬(c ≤ (q ++ [proc p i]).length ∨ rest2 = []) := by
            rw [not_or]
            exact ⟨hc, h2⟩
          simp only [processBatchLoop]
          rw [if_neg hcond, ih (i + 1) (q ++ [proc p i]) res h2]
          simp [enumProc, List.append_assoc]

/-- `processBatch` computes exactly the in-order per-input outcomes. -/
theorem processBatch_eq_enum (proc : String → Nat → ProcessingResult) (inputs : List String)
    (c : Nat) : processBatch proc inputs c = enumProc proc 0 inputs := by
  cases inputs with
  | nil => rfl
  | cons p rest =>
      rw [processBatch, processBatchLoop_spec proc c (p :: rest) 0 [] [] (by simp)]
      simp

/-- `enumProc` yields one outcome per input. -/
theorem enumProc_length (proc : String → Nat → ProcessingResult) :
    ∀ (i : Nat) (l : List String), (enumProc proc i l).length = l.length := by
  intro i l
  induction l generalizing i with
  | nil => rfl
  | cons p rest ih => simp [enumProc, ih]

/-- The k-th outcome of `enumProc` is the processor applied to the k-th input
and its index. -/
theorem enumProc_getD (proc : String → Nat → ProcessingResult) :
    ∀ (l : List String) (i k : Nat), k < l.length →
      (enumProc proc i l).getD k defaultResult = proc (l.getD k "") (i + k) := by
  intro l
  induction l with
  | nil => intro i k hk; simp at hk
  | cons p rest ih =>
      intro i k hk
      cases k with
      | zero => simp [enumProc]
      | succ k2 =>
          simp only [enumProc, List.getD_cons_succ]
          rw [ih (i + 1) k2 (by simpa using hk)]
          congr 1
          omega

/-- A successful `processImageCore` run produces a record for its own input
path flagged as success with no error. -/
theorem processImageCore_ok_fields (env : ImageEnv) (p : String) (pipe : Pipeline)
    (od : Option String) (idx : Option Nat) (r : ProcessingResult)
    (h : processImageCore env p pipe od idx = .ok r) :
    r.inputPath = p ∧ r.success = true ∧ r.error = none := by
  rw [processImageCore] at h
  cases hs : env.statSize with
  | error e => simp [hs] at h
  | ok n =>
    simp only [hs] at h
    cases hd : env.decodeMeta with
    | error e => simp [hd] at h
    | ok meta =>
      simp only [hd] at h
      cases hr : runPipeline env.sem meta pipe.pipeline (initState env.initialHandle meta) with
      | error e => simp [hr] at h
      | ok st =>
        simp only [hr] at h
        cases he : env.ensureDir with
        | error e => simp [he] at h
        | ok u =>
          simp only [he] at h
          cases hw : env.writeResult with
          | error e => simp [hw] at h
          | ok m =>
            simp only [hw] at h
            cases h
            exact ⟨rfl, rfl, rfl⟩

/-- A failing `processImageCore` is converted by the catch block into the
failure record. -/
theorem processImage_error_case (env : ImageEnv) (p : String) (pipe : Pipeline)
    (od : Option String) (idx : Option Nat) (e : String)
    (h : processImageCore env p pipe od idx = .error e) :
    processImage env p pipe od idx = failureResult p e := by
  rw [processImage, h]

/-- Every outcome of `processImage` carries its own input path. -/
theorem processImage_inputPath (env : ImageEnv) (p : String) (pipe : Pipeline)
    (od : Option String) (idx : Option Nat) :
    (processImage env p pipe od idx).inputPath = p := by
  rw [processImage]
  cases h : processImageCore env p pipe od idx with
  | error e => rfl
  | ok r => exact (processImageCore_ok_fields env p pipe od idx r h).1

/-- C3: `processBatch` over M inputs always returns exactly M outcomes in
input order — the k-th outcome is `processImage` of the k-th input and carries
that input path — and any per-image error is caught inside `processImage` and
converted into a failure outcome (success = false with an error description)
without affecting the other entries. -/
theorem processBatch_outcomes (envf : Nat → ImageEnv) (pipe : Pipeline) (outputDir : Option String)
    (c : Nat) (inputs : List String) :
    (processBatch (fun p i => processImage (envf i) p pipe outputDir (some i)) inputs c).length
        = inputs.length ∧
    (∀ k, k < inputs.length →
      (processBatch (fun p i => processImage (envf i) p pipe outputDir (some i)) inputs c).getD
          k defaultResult
        = processImage (envf k) (inputs.getD k "") pipe outputDir (some k) ∧
      ((processBatch (fun p i => processImage (envf i) p pipe outputDir (some i)) inputs c).getD
          k defaultResult).inputPath
        = inputs.getD k "") ∧
    (∀ env p od idx e, processImageCore env p pipe od idx = .error e →
      processImage env p pipe od idx = failureResult p e ∧
      (processImage env p pipe od idx).success = false ∧
      (processImage env p pipe od idx).error = some e) := by
  have hbatch := processBatch_eq_enum
    (fun p i => processImage (envf i) p pipe outputDir (some i)) inputs c
  refine ⟨?_, ?_, ?_⟩
  · rw [hbatch]
    exact enumProc_length _ 0 inputs
  · intro k hk
    have hg := enumProc_getD (fun p i => processImage (envf i) p pipe outputDir (some i))
      inputs 0 k hk
    simp only [Nat.zero_add] at hg
    rw [hbatch]
    exact ⟨hg, by rw [hg]; exact processImage_inputPath _ _ _ _ _⟩
  · intro env p od idx e h
    have hfail := processImage_error_case env p pipe od idx e h
    refine ⟨hfail, ?_, ?_⟩ <;> rw [hfail] <;> rfl

/-- Witness for `processBatch_outcomes`: a 3-input batch with concurrency 2
whose middle input fails at stat returns 3 outcomes, the middle one being the
failure record. -/
theorem processBatch_outcomes_witness :
    (processBatch (fun p i => processImage (envfW i) p pipeW none (some i)) ["a", "b", "c"] 2).length
        = 3 ∧
    (processBatch (fun p i => processImage (envfW i) p pipeW none (some i)) ["a", "b", "c"] 2).getD
        1 defaultResult
      = failureResult "b" "boom" := by
  have h := processBatch_outcomes envfW pipeW none 2 ["a", "b", "c"]
  refine ⟨h.1, ?_⟩
  rw [(h.2.1 1 (by decide)).1]
  exact (h.2.2 (envfW 1) "b" none (some 1) "boom" rfl).1
